import Mathlib

/-!
Shallow embedding of the LDA-Backend time-tracking frontend
(React, `src/frontend/src`), covering the time-entry lifecycle and the
job cost accounting logic: clock-in guards, duration arithmetic,
labor/materials costing, variance, UTC/UK-local time conversion,
geolocation capture, CSV export rows, and roster filtering.

Conventions of the embedding:
- timestamps are integers (milliseconds since the Unix epoch, UTC);
- JS numbers used for currency, rates and hours are embedded as rationals
  (the claims are about the arithmetic formulas, not float rounding);
- nullable fields are `Option`;
- JS truthiness tests on numbers (`entry.duration_minutes ? _ : _`) are
  embedded by `jsTruthy`, false exactly on `null` and `0`.
-/

/-- Worker record as served by the backend and consumed by the dashboard:
`hourly_rate` is optional (older records may lack it). -/
structure Worker where
  id : String
  name : String
  role : String
  hourly_rate : Option ℚ
  active : Bool
  archived : Bool
deriving DecidableEq, Repr

/-- Job record: `status` is one of active, completed, cancelled;
`created_date` is a UTC timestamp in ms. -/
structure Job where
  id : String
  name : String
  client : String
  location : String
  status : String
  quoted_cost : ℚ
  archived : Bool
  created_date : ℤ
deriving DecidableEq, Repr

/-- Time entry: `clock_in` and `clock_out` are UTC timestamps in ms,
`clock_out` and `duration_minutes` are null while the entry is active. -/
structure TimeEntry where
  id : String
  worker_id : String
  job_id : String
  clock_in : ℤ
  clock_out : Option ℤ
  duration_minutes : Option ℤ
  notes : String
deriving DecidableEq, Repr

/-- Material purchase: `cost` is the unit cost, `quantity` a whole number. -/
structure Material where
  id : String
  job_id : String
  name : String
  cost : ℚ
  quantity : ℤ
deriving DecidableEq, Repr

/-- JS truthiness of a nullable number: false exactly for `null` and `0`.
Used where the source tests `entry.duration_minutes` directly. -/
def jsTruthy : Option ℤ → Bool
  | none => false
  | some n => n != 0

/-- Duration of an entry as a rational number of minutes, with the
`(entry.duration_minutes || 0)` default of the source. -/
def entryMinutes (e : TimeEntry) : ℚ :=
  ((e.duration_minutes.getD 0 : ℤ) : ℚ)

/-- Hourly rate used by `AdminDashboard.getJobTotals` and the time-entries
table: `worker?.hourly_rate || 15.0`, so the 15.00 default applies when the
worker record is missing, when its rate is null, and when its rate is `0`
(JS `||` tests falsiness, not nullness). -/
def codeRate (workers : List Worker) (workerId : String) : ℚ :=
  match workers.find? (fun w => w.id == workerId) with
  | none => 15
  | some w =>
    match w.hourly_rate with
    | none => 15
    | some r => if r = 0 then 15 else r

/-- Hourly rate as the specification words it: default 15.00 exactly when
the worker record is missing or has no explicit rate. Written from the
spec text of claim C3 for comparison with `codeRate`. -/
def specRate (workers : List Worker) (workerId : String) : ℚ :=
  match workers.find? (fun w => w.id == workerId) with
  | none => 15
  | some w => w.hourly_rate.getD 15

/-- Totals returned by `AdminDashboard.getJobTotals`. -/
structure JobTotals where
  totalHours : ℚ
  laborCost : ℚ
  materialsCost : ℚ
  totalCost : ℚ
deriving DecidableEq, Repr

/-- Embedding of `AdminDashboard.getJobTotals` (AdminDashboard.js 251-270):
filters entries to the job with a truthy `duration_minutes`, sums hours,
accumulates labor cost per entry at `worker?.hourly_rate || 15.0`, and sums
`material.cost * material.quantity` for the materials of the job. -/
def getJobTotals (jobId : String) (timeEntries : List TimeEntry)
    (materials : List Material) (workers : List Worker) : JobTotals :=
  let jobTimeEntries := timeEntries.filter
    (fun e => e.job_id == jobId && jsTruthy e.duration_minutes)
  let jobMaterials := materials.filter (fun m => m.job_id == jobId)
  let totalHours :=
    (jobTimeEntries.foldl (fun sum e => sum + entryMinutes e) 0) / 60
  let laborCost := jobTimeEntries.foldl
    (fun acc e => acc + (entryMinutes e / 60) * codeRate workers e.worker_id) 0
  let materialsCost := jobMaterials.foldl
    (fun sum m => sum + m.cost * (m.quantity : ℚ)) 0
  { totalHours := totalHours
    laborCost := laborCost
    materialsCost := materialsCost
    totalCost := laborCost + materialsCost }

/-- Labor cost as the specification words it (claim C3): sum over entries
with non-null duration of `(duration_minutes / 60) * hourlyRate`, rate per
`specRate`. Written from the spec text for comparison with the code. -/
def specLaborCost (entries : List TimeEntry) (workers : List Worker) : ℚ :=
  ((entries.filter (fun e => e.duration_minutes.isSome)).map
    (fun e => (entryMinutes e / 60) * specRate workers e.worker_id)).sum

/-- Per-entry cost shown in the job report time-entries table
(JobReportModal.js 233-234): a flat rate of 15 for every entry,
`entry.duration_minutes ? (entry.duration_minutes / 60) * 15 : 0`. -/
def jobReportEntryLaborCost (e : TimeEntry) : ℚ :=
  if jsTruthy e.duration_minutes then (entryMinutes e / 60) * 15 else 0

/-- Per-entry cost shown in the admin dashboard time-entries table
(AdminDashboard.js 752-755): the workers individual rate with the
`|| 15.0` default, zero while the duration is falsy. -/
def dashboardEntryLaborCost (workers : List Worker) (e : TimeEntry) : ℚ :=
  if jsTruthy e.duration_minutes
  then (entryMinutes e / 60) * codeRate workers e.worker_id
  else 0

/-- Variance as computed in the jobs table (AdminDashboard.js 573):
`job.quoted_cost - totals.totalCost`. -/
def adminVariance (job : Job) (totals : JobTotals) : ℚ :=
  job.quoted_cost - totals.totalCost

/-- Modelled from the spec: the backend job-report field `cost_variance`
consumed by JobReportModal.js 194-202 (the FastAPI backend is not under
src); spec section 4.4 defines it as `quotedCost - totalCost`. -/
def jobReportCostVariance (quotedCost totalCost : ℚ) : ℚ :=
  quotedCost - totalCost

/-- Materials cost as the specification words it (claim C7): the sum of
`unitCost * quantity` over all materials in the set. -/
def specMaterialsCost (ms : List Material) : ℚ :=
  (ms.map (fun m => m.cost * (m.quantity : ℚ))).sum

/-- Embedding of `formatDuration` (WorkerContext.js 167-171):
hours = floor(minutes / 60), mins = minutes % 60 (JS truncating rem). -/
def formatDuration (minutes : ℤ) : String :=
  toString (minutes.fdiv 60) ++ "h " ++ toString (minutes.tmod 60) ++ "m"

/-- Duration cell of the time-entry tables (AdminDashboard.js 771 and
JobReportModal.js 247): `entry.duration_minutes ?
formatDuration(entry.duration_minutes) : "Active"`. -/
def durationCellText (d : Option ℤ) : String :=
  if jsTruthy d then formatDuration (d.getD 0) else "Active"

/-- Duration computed by the admin edit modal on submit
(EditTimeEntryModal.js 94-102, src/unnamed/part_001 33-39): when both
timestamps are present, `Math.floor((clockOut - clockIn) / 60000)`
(floor division on ms), otherwise null. -/
def computeEditDuration (clockIn clockOut : Option ℤ) : Option ℤ :=
  match clockIn, clockOut with
  | some ci, some co => some ((co - ci).fdiv 60000)
  | _, _ => none

/-- Job picker filter of the clock-in form (ClockInOut.js 44):
`jobs.filter(job => job.status === "active")`. -/
def activeJobs (jobs : List Job) : List Job :=
  jobs.filter (fun j => j.status == "active")

/-- Login roster (EditWorkerModal.js 491-494): filter out archived workers
and admin users, then sort alphabetically by name (localeCompare embedded
as the lexicographic order on the name strings). -/
def availableWorkers (workers : List Worker) : List Worker :=
  (workers.filter (fun w => !w.archived && w.role != "admin")).mergeSort
    (fun a b => a.name ≤ b.name)

/-- Whether a worker has an active entry (null clock-out) in a store. -/
def hasActiveEntry (entries : List TimeEntry) (workerId : String) : Bool :=
  entries.any (fun e => e.worker_id == workerId && e.clock_out == none)

/-- Persistent state touched by the clock-in flow. -/
structure Store where
  jobs : List Job
  timeEntries : List TimeEntry
deriving DecidableEq, Repr

/-- Error taxonomy of the clock-in guard (spec section 7). -/
inductive ClockInError where
  | alreadyClockedIn
  | invalidReference
deriving DecidableEq, Repr

/-- Modelled from the spec: the backend clock-in endpoint invoked by
`WorkerContext.clockIn` (the FastAPI backend is not under src). Spec
section 4.2 and scenario B: the worker must have no active entry, else the
call fails with AlreadyClockedInError and the store is unchanged; the job
must exist with status active, else InvalidReferenceError; on success a
new entry with null clock-out and null duration is appended. The store is
returned alongside the outcome so that the unchanged-on-error part of the
contract is expressible. -/
def clockInModel (s : Store) (workerId jobId : String) (now : ℤ)
    (notes : String) : Store × Except ClockInError TimeEntry :=
  if hasActiveEntry s.timeEntries workerId then
    (s, Except.error ClockInError.alreadyClockedIn)
  else
    match s.jobs.find? (fun j => j.id == jobId && j.status == "active") with
    | none => (s, Except.error ClockInError.invalidReference)
    | some _ =>
      let e : TimeEntry :=
        { id := toString s.timeEntries.length
          worker_id := workerId
          job_id := jobId
          clock_in := now
          clock_out := none
          duration_minutes := none
          notes := notes }
      ({ s with timeEntries := s.timeEntries ++ [e] }, Except.ok e)

/-- GPS fix produced by the device. -/
structure GeoPosition where
  latitude : ℚ
  longitude : ℚ
  accuracy : ℚ
deriving DecidableEq, Repr

/-- Outcome of a geolocation request once the API is available: either a
fix or a failure (permission denied, position unavailable, timeout). -/
inductive GeoOutcome where
  | success (p : GeoPosition)
  | failure
deriving DecidableEq, Repr

/-- Device state seen by `getCurrentPosition`: whether
`navigator.geolocation` exists, and the outcome the API would deliver. -/
structure GeoDevice where
  supported : Bool
  outcome : GeoOutcome
deriving DecidableEq, Repr

/-- Options object passed to the geolocation API (WorkerContext.js 64). -/
structure GeoOptions where
  enableHighAccuracy : Bool
  timeout : ℤ
  maximumAge : ℤ
deriving DecidableEq, Repr

/-- The literal options of the source: high accuracy, 10 s timeout,
60 s maximum cached-reading age. -/
def geoOptions : GeoOptions :=
  { enableHighAccuracy := true, timeout := 10000, maximumAge := 60000 }

/-- Embedding of `getCurrentPosition` (WorkerContext.js 45-67) as a
function of the device state: when `navigator.geolocation` is absent the
promise is rejected with an Error; otherwise a fix resolves to the
position and any API error resolves to null. -/
def getCurrentPosition (d : GeoDevice) : Except String (Option GeoPosition) :=
  if d.supported then
    match d.outcome with
    | GeoOutcome.success p => Except.ok (some p)
    | GeoOutcome.failure => Except.ok none
  else
    Except.error "Geolocation is not supported"

/-- JS `String.prototype.includes`, embedded via `splitOn`: a nonempty
pattern occurs in `s` iff splitting on it produces more than one part. -/
def jsIncludes (s pat : String) : Bool :=
  if pat = "" then true else (s.splitOn pat).length != 1

/-- Filters of the jobs tab. -/
structure JobFilters where
  client : String
  status : String
deriving DecidableEq, Repr

/-- Embedding of `AdminDashboard.getFilteredJobs` (AdminDashboard.js
273-283): a nonempty client filter keeps jobs whose lowercased client
contains the lowercased filter text, a nonempty status filter keeps jobs
with exactly that status. -/
def getFilteredJobs (filters : JobFilters) (jobs : List Job) : List Job :=
  jobs.filter (fun job =>
    (filters.client == ""
      || jsIncludes job.client.toLower filters.client.toLower)
    && (filters.status == "" || job.status == filters.status))

/-- One CSV cell before byte-serialization: the source rows mix strings
and the raw `quoted_cost` number. -/
inductive Cell where
  | str (s : String)
  | num (q : ℚ)
deriving DecidableEq, Repr

/-- Header row of the jobs CSV export (AdminDashboard.js 214). -/
def jobsCsvHeader : List Cell :=
  [Cell.str "Job Name", Cell.str "Client", Cell.str "Location",
   Cell.str "Status", Cell.str "Quoted Cost", Cell.str "Created Date"]

/-- Data row of the jobs CSV export (AdminDashboard.js 215-222):
`[job.name, job.client, job.location, job.status, job.quoted_cost,
formatDate(job.created_date)]`, with the locale date formatter passed in
as `fmtDate` (Intl plumbing, external per spec section 6). -/
def jobCsvRow (fmtDate : ℤ → String) (j : Job) : List Cell :=
  [Cell.str j.name, Cell.str j.client, Cell.str j.location,
   Cell.str j.status, Cell.num j.quoted_cost, Cell.str (fmtDate j.created_date)]

/-- Rows of the jobs CSV export (AdminDashboard.js 213-223): the header
row followed by one row per filtered job. -/
def exportJobsRows (fmtDate : ℤ → String) (filteredJobs : List Job) :
    List (List Cell) :=
  jobsCsvHeader :: filteredJobs.map (jobCsvRow fmtDate)

/-- Full jobs export pipeline: rows built over `getFilteredJobs`. -/
def exportJobs (fmtDate : ℤ → String) (filters : JobFilters)
    (jobs : List Job) : List (List Cell) :=
  exportJobsRows fmtDate (getFilteredJobs filters jobs)

/-- Truncation of a ms timestamp to the whole minute below it, as the
minute-precision datetime-local formatter does to the wall clock. -/
def minuteFloor (x : ℤ) : ℤ :=
  60000 * (x.fdiv 60000)

/-- Embedding of `convertUTCToUKInput` (EditTimeEntryModal.js 9-23):
format a UTC instant as a Europe/London wall-clock string at minute
precision. The tz database lookup done by Intl.DateTimeFormat is the
parameter `ukOff` (offset in ms at a UTC instant); the wall-clock string
is represented by the ms value its digits denote. -/
def convertUTCToUKInput (ukOff : ℤ → ℤ) (t : ℤ) : ℤ :=
  minuteFloor (t + ukOff t)

/-- Embedding of `convertUKInputToUTC` (EditTimeEntryModal.js 26-66).
The source first parses the wall-clock string with `new Date(...)`, which
JS interprets in the local timezone of the runtime: `envOff` is that
runtime offset, so `testDate = wall - envOff wall`. It then computes the
Europe/London offset at `testDate` by formatting it in Europe/London and
in UTC and differencing the reparsed wall clocks, which equals
`ukOff testDate` (the runtime offset cancels), and subtracts it. -/
def convertUKInputToUTC (ukOff envOff : ℤ → ℤ) (wall : ℤ) : ℤ :=
  let testDate := wall - envOff wall
  testDate - ukOff testDate

/-- Europe/London UTC offset in ms restricted to 2025, as consulted by
Intl.DateTimeFormat: BST (+3600000) from 2025-03-30 01:00 UTC to
2025-10-26 01:00 UTC (the last Sundays of March and October), GMT (0)
otherwise. -/
def ukOffset2025 (t : ℤ) : ℤ :=
  if 1743296400000 ≤ t ∧ t < 1761440400000 then 3600000 else 0

/-- Accumulating fold of a rational-valued map equals the initial value
plus the sum of the mapped list (shared shape of the cost folds). -/
theorem foldl_add_sum {α : Type} (f : α → ℚ) (l : List α) (a : ℚ) :
    l.foldl (fun s x => s + f x) a = a + (l.map f).sum := by
  induction l generalizing a with
  | nil => simp
  | cons x t ih => simp [ih, add_assoc]

/-- Claim C1: for every worker, clockIn succeeds only when the referenced
job has status active and the worker has no active entry (no TimeEntry
with null clock-out); a clock-in attempted while the worker already has an
active entry fails with AlreadyClockedInError and leaves the stored state
unchanged. The active-job constraint is also the one the clock-in form
enforces through its `activeJobs` picker. -/
theorem clockIn_guard (s : Store) (workerId jobId : String) (now : ℤ)
    (notes : String) :
    (hasActiveEntry s.timeEntries workerId = true →
      clockInModel s workerId jobId now notes =
        (s, Except.error ClockInError.alreadyClockedIn))
    ∧ (∀ s2 e, clockInModel s workerId jobId now notes = (s2, Except.ok e) →
        hasActiveEntry s.timeEntries workerId = false
        ∧ ∃ job ∈ s.jobs, job.id = jobId ∧ job.status = "active")
    ∧ (∀ j, j ∈ activeJobs s.jobs ↔ j ∈ s.jobs ∧ j.status = "active") := by
  refine ⟨?_, ?_, ?_⟩
  · intro h
    simp [clockInModel, h]
  · intro s2 e h
    by_cases hact : hasActiveEntry s.timeEntries workerId
    · simp [clockInModel, hact] at h
    · refine ⟨by simpa using hact, ?_⟩
      rcases hfind : s.jobs.find?
          (fun j => j.id == jobId && j.status == "active") with _ | job
      · simp [clockInModel, hact, hfind] at h
      · have hmem := List.mem_of_find?_eq_some hfind
        have hprop := List.find?_some hfind
        simp only [Bool.and_eq_true, beq_iff_eq] at hprop
        exact ⟨job, hmem, hprop.1, hprop.2⟩
  · intro j
    simp [activeJobs, List.mem_filter]

/-- A store with one job and one still-active entry for worker w1,
used to witness the clock-in guard. -/
def storeWithActive : Store :=
  { jobs := [{ id := "j1", name := "Job 1", client := "C", location := "L",
               status := "active", quoted_cost := 1000, archived := false,
               created_date := 0 }]
    timeEntries := [{ id := "e1", worker_id := "w1", job_id := "j1",
                      clock_in := 0, clock_out := none,
                      duration_minutes := none, notes := "" }] }

/-- Witness for claim C1: worker w1 already has an active entry, and the
attempted clock-in fails with AlreadyClockedInError leaving the store
unchanged. -/
theorem clockIn_guard_witness :
    hasActiveEntry storeWithActive.timeEntries "w1" = true
    ∧ clockInModel storeWithActive "w1" "j1" 1000 "" =
        (storeWithActive, Except.error ClockInError.alreadyClockedIn) :=
  ⟨by decide, (clockIn_guard storeWithActive "w1" "j1" 1000 "").1 (by decide)⟩

/-- Counterexample to claim C2: an admin edit whose clock-out precedes its
clock-in (clock-in 60000 ms, clock-out 0 ms) records a duration of minus
one minute, so the recorded duration is not always non-negative. -/
theorem editDuration_negative_counterexample :
    computeEditDuration (some 60000) (some 0) = some (-1) ∧ (-1 : ℤ) < 0 :=
  ⟨rfl, by decide⟩

/-- Claim C2 (amended): whenever both timestamps are present the recorded
duration is the floor of the ms difference over 60000 (truncation, never
rounding up), it is non-negative whenever clock-out is at or after
clock-in, and it is null whenever clock-out is cleared. -/
theorem editDuration_floor (ci co : ℤ) (h : ci ≤ co) :
    computeEditDuration (some ci) (some co) = some ((co - ci).fdiv 60000)
    ∧ 0 ≤ (co - ci).fdiv 60000
    ∧ 60000 * ((co - ci).fdiv 60000) ≤ co - ci
    ∧ co - ci < 60000 * ((co - ci).fdiv 60000 + 1)
    ∧ computeEditDuration (some ci) none = none := by
  have hfd : (co - ci).fdiv 60000 = (co - ci) / 60000 :=
    Int.fdiv_eq_ediv _ (by norm_num)
  have h1 := Int.ediv_add_emod (co - ci) 60000
  have h2 := Int.emod_nonneg (co - ci) (by norm_num : (60000 : ℤ) ≠ 0)
  have h3 := Int.emod_lt_of_pos (co - ci) (by norm_num : (0 : ℤ) < 60000)
  refine ⟨rfl, ?_, ?_, ?_, rfl⟩ <;> omega

/-- Witness for claim C2: a 90-second shift (clock-in 0, clock-out
90000 ms) records a duration of 1 whole minute, truncated. -/
theorem editDuration_floor_witness :
    (0 : ℤ) ≤ 90000 ∧ computeEditDuration (some 0) (some 90000) = some 1 :=
  ⟨by norm_num, by rw [(editDuration_floor 0 90000 (by norm_num)).1]; decide⟩

/-- When no worker carries an explicit zero rate, the JS falsiness default
of the code agrees with the nullness default of the spec. -/
theorem codeRate_eq_specRate (ws : List Worker)
    (hz : ws.all (fun w => w.hourly_rate != some 0) = true) (wid : String) :
    codeRate ws wid = specRate ws wid := by
  unfold codeRate specRate
  rcases hf : ws.find? (fun w => w.id == wid) with _ | w
  · rw [hf]
  · rw [hf]
    dsimp only
    have hw := List.mem_of_find?_eq_some hf
    have hz2 := (List.all_eq_true.mp hz) w hw
    rcases hr : w.hourly_rate with _ | r
    · rfl
    · rw [hr] at hz2
      have hrne : r ≠ 0 := by simpa using hz2
      simp [hrne]

/-- Unfolding step of the spec labor-cost sum at a cons cell. -/
theorem specLaborCost_cons (ws : List Worker) (e : TimeEntry)
    (l : List TimeEntry) :
    specLaborCost (e :: l) ws
      = (if e.duration_minutes.isSome = true
         then (entryMinutes e / 60) * specRate ws e.worker_id else 0)
        + specLaborCost l ws := by
  unfold specLaborCost
  rw [List.filter_cons]
  by_cases h : e.duration_minutes.isSome = true
  · simp [h]
  · simp [h]

/-- Unfolding step of the code labor-cost sum at a cons cell. -/
theorem codeLaborSum_cons (ws : List Worker) (jobId : String) (e : TimeEntry)
    (t : List TimeEntry) :
    ((List.filter (fun e => e.job_id == jobId && jsTruthy e.duration_minutes)
        (e :: t)).map
      (fun e => (entryMinutes e / 60) * codeRate ws e.worker_id)).sum
    = (if (e.job_id == jobId && jsTruthy e.duration_minutes) = true
       then (entryMinutes e / 60) * codeRate ws e.worker_id else 0)
      + ((List.filter
            (fun e => e.job_id == jobId && jsTruthy e.duration_minutes) t).map
          (fun e => (entryMinutes e / 60) * codeRate ws e.worker_id)).sum := by
  rw [List.filter_cons]
  by_cases h : (e.job_id == jobId && jsTruthy e.duration_minutes) = true
  · simp [h]
  · simp [h]

/-- The labor-cost sum over entries with truthy duration at the code rate
equals the spec sum over entries with non-null duration at the spec rate,
for a fixed job filter, provided no worker has an explicit zero rate:
entries with zero duration contribute zero to the spec sum, and the two
rates agree elsewhere. -/
theorem laborSum_eq (ws : List Worker)
    (hz : ws.all (fun w => w.hourly_rate != some 0) = true)
    (jobId : String) (l : List TimeEntry) :
    ((l.filter (fun e => e.job_id == jobId && jsTruthy e.duration_minutes)).map
      (fun e => (entryMinutes e / 60) * codeRate ws e.worker_id)).sum
    = specLaborCost (l.filter (fun e => e.job_id == jobId)) ws := by
  induction l with
  | nil => simp [specLaborCost]
  | cons e t ih =>
    rw [codeLaborSum_cons, List.filter_cons]
    by_cases hj : (e.job_id == jobId) = true
    · rw [if_pos hj, specLaborCost_cons]
      rcases hd : e.duration_minutes with _ | n
      · have hc : (e.job_id == jobId && jsTruthy (none : Option ℤ)) = false := by
          simp [jsTruthy]
        rw [if_neg (by rw [hc]; exact Bool.false_ne_true),
          if_neg (show ¬((none : Option ℤ).isSome = true) from Bool.false_ne_true),
          ih]
      · by_cases hn : n = 0
        · subst hn
          have hc : (e.job_id == jobId && jsTruthy (some (0 : ℤ))) = false := by
            simp [jsTruthy]
          have hzero : entryMinutes e = 0 := by
            simp [entryMinutes, hd]
          rw [if_neg (by rw [hc]; exact Bool.false_ne_true),
            if_pos (show ((some (0 : ℤ)).isSome = true) from rfl), hzero, ih]
          ring
        · have hc : (e.job_id == jobId && jsTruthy (some n)) = true := by
            simp [jsTruthy, hj, hn]
          rw [if_pos hc, if_pos (show ((some n).isSome = true) from rfl), ih,
            codeRate_eq_specRate ws hz]
    · have hj2 : (e.job_id == jobId) = false := by
        simpa using hj
      rw [if_neg (by rw [hj2, Bool.false_and]; exact Bool.false_ne_true),
        if_neg hj, ih, zero_add]

/-- Counterexample entities for claim C3: a worker with an explicit rate
of 20.00 per hour and a closed 60-minute entry of that worker. -/
def rateWorker : Worker :=
  { id := "w1", name := "Alice", role := "worker", hourly_rate := some 20,
    active := true, archived := false }

/-- Closed 60-minute entry of `rateWorker` on job j1. -/
def hourEntry : TimeEntry :=
  { id := "e1", worker_id := "w1", job_id := "j1", clock_in := 0,
    clock_out := some 3600000, duration_minutes := some 60, notes := "" }

/-- Counterexample to claim C3: on the job-report surface the per-entry
cost of the 60-minute entry of a worker whose rate is 20.00 is 15.00 (a
flat rate of 15 for every entry), while the claimed formula with the
owning workers rate gives 20.00, so not every report surface prices labor
at the owning workers hourly rate. -/
theorem jobReport_flatRate_counterexample :
    jobReportEntryLaborCost hourEntry = 15
    ∧ specLaborCost [hourEntry] [rateWorker] = 20
    ∧ (15 : ℚ) ≠ 20 := by
  refine ⟨?_, ?_, by norm_num⟩
  · simp [jobReportEntryLaborCost, jsTruthy, hourEntry, entryMinutes]
  · simp [specLaborCost, specRate, rateWorker, hourEntry, entryMinutes,
      List.find?]

/-- Claim C3 (amended): on the admin dashboard surfaces the labor cost of
a job equals the spec sum over that jobs entries with non-null duration of
`(duration_minutes / 60) * hourlyRate` at the owning workers rate with the
15.00 default, provided no worker record carries an explicit rate of 0
(the code also defaults an explicit 0 to 15.00); the job-report
time-entries surface instead prices every entry at a flat 15.00. -/
theorem laborCost_spec (jobId : String) (es : List TimeEntry)
    (ms : List Material) (ws : List Worker)
    (hz : ws.all (fun w => w.hourly_rate != some 0) = true) :
    (getJobTotals jobId es ms ws).laborCost
      = specLaborCost (es.filter (fun e => e.job_id == jobId)) ws := by
  have hfold : (getJobTotals jobId es ms ws).laborCost
      = ((es.filter
            (fun e => e.job_id == jobId && jsTruthy e.duration_minutes)).map
          (fun e => (entryMinutes e / 60) * codeRate ws e.worker_id)).sum := by
    simp [getJobTotals, foldl_add_sum]
  rw [hfold, laborSum_eq ws hz jobId es]

/-- Witness for claim C3: with the single worker at rate 20.00 and the
single 60-minute entry, the dashboard labor cost equals the spec sum. -/
theorem laborCost_spec_witness :
    ([rateWorker].all (fun w => w.hourly_rate != some 0)) = true
    ∧ (getJobTotals "j1" [hourEntry] [] [rateWorker]).laborCost
        = specLaborCost ([hourEntry].filter (fun e => e.job_id == "j1"))
            [rateWorker] :=
  ⟨by simp [rateWorker], laborCost_spec "j1" [hourEntry] [] [rateWorker]
    (by simp [rateWorker])⟩

/-- Total cost of the dashboard totals is labor plus materials, by
construction of `getJobTotals`. -/
theorem getJobTotals_totalCost (jobId : String) (es : List TimeEntry)
    (ms : List Material) (ws : List Worker) :
    (getJobTotals jobId es ms ws).totalCost
      = (getJobTotals jobId es ms ws).laborCost
        + (getJobTotals jobId es ms ws).materialsCost := rfl

/-- Claim C4: variance is quotedCost minus totalCost with
totalCost = laborCost + materialsCost, the jobs-table computation agrees
with the job-report field, and the shared sign convention holds: the
variance is non-negative (rendered green, Under budget) exactly when the
total cost does not exceed the quoted cost. -/
theorem variance_spec (job : Job) (es : List TimeEntry) (ms : List Material)
    (ws : List Worker) :
    adminVariance job (getJobTotals job.id es ms ws)
      = job.quoted_cost - ((getJobTotals job.id es ms ws).laborCost
          + (getJobTotals job.id es ms ws).materialsCost)
    ∧ adminVariance job (getJobTotals job.id es ms ws)
      = jobReportCostVariance job.quoted_cost
          (getJobTotals job.id es ms ws).totalCost
    ∧ (0 ≤ adminVariance job (getJobTotals job.id es ms ws)
        ↔ (getJobTotals job.id es ms ws).totalCost ≤ job.quoted_cost) := by
  refine ⟨?_, rfl, ?_⟩
  · rw [adminVariance, getJobTotals_totalCost]
  · rw [adminVariance]
    exact sub_nonneg

/-- Claim C7: the materials cost of a job on the dashboard equals the sum
of unitCost times quantity over the materials of the job, with no rounding
anywhere in the sum, and the same holds for the job-report surface whose
per-material row total is unitCost times quantity. -/
theorem materialsCost_spec (jobId : String) (es : List TimeEntry)
    (ms : List Material) (ws : List Worker) :
    (getJobTotals jobId es ms ws).materialsCost
      = specMaterialsCost (ms.filter (fun m => m.job_id == jobId)) := by
  have h := foldl_add_sum (fun m : Material => m.cost * (m.quantity : ℚ))
    (ms.filter (fun m => m.job_id == jobId)) 0
  show (ms.filter (fun m => m.job_id == jobId)).foldl
      (fun sum m => sum + m.cost * (m.quantity : ℚ)) 0 = _
  rw [h, zero_add, specMaterialsCost]

/-- Counterexample to claim C6: on a device where `navigator.geolocation`
is absent, `getCurrentPosition` rejects its promise with an Error instead
of resolving to null, so location acquisition can reject to its caller. -/
theorem geolocation_reject_counterexample :
    getCurrentPosition { supported := false, outcome := GeoOutcome.failure }
      = Except.error "Geolocation is not supported" := rfl

/-- Claim C6 (amended): whenever the geolocation API is available the
promise always resolves (never rejects): a failure outcome (permission
denied, unavailable, or timeout) resolves to null, and the configured
bounds are the 10 s high-accuracy timeout and 60 s cached-reading
tolerance; only when the API itself is absent does the promise reject. -/
theorem geolocation_resolves (d : GeoDevice) (h : d.supported = true) :
    (getCurrentPosition d).isOk = true
    ∧ (d.outcome = GeoOutcome.failure →
        getCurrentPosition d = Except.ok none)
    ∧ geoOptions.enableHighAccuracy = true
    ∧ geoOptions.timeout = 10000
    ∧ geoOptions.maximumAge = 60000 := by
  refine ⟨?_, ?_, rfl, rfl, rfl⟩
  · rcases ho : d.outcome with p | _
    · simp [getCurrentPosition, h, ho, Except.isOk, Except.toBool]
    · simp [getCurrentPosition, h, ho, Except.isOk, Except.toBool]
  · intro ho
    simp [getCurrentPosition, h, ho]

/-- Witness for claim C6: a supported device whose request fails resolves
to null rather than rejecting. -/
theorem geolocation_resolves_witness :
    (GeoDevice.mk true GeoOutcome.failure).supported = true
    ∧ getCurrentPosition (GeoDevice.mk true GeoOutcome.failure)
        = Except.ok none :=
  ⟨rfl, (geolocation_resolves (GeoDevice.mk true GeoOutcome.failure) rfl).2.1
    rfl⟩

/-- The minute truncation is the identity on minute-aligned values. -/
theorem minuteFloor_of_dvd (x : ℤ) (h : (60000 : ℤ) ∣ x) :
    minuteFloor x = x := by
  unfold minuteFloor
  rw [Int.fdiv_eq_ediv _ (by norm_num)]
  exact Int.mul_ediv_cancel' h

/-- Claim C5 (amended): when the runtime parses datetime-local strings as
UTC (environment offset zero), the round trip returns t for every
minute-aligned instant t whose Europe/London offset is a whole number of
minutes and is stable under shifting t by itself (t outside a
DST-transition window); with the runtime itself in Europe/London the round
trip instead lands one BST offset early, see the counterexample. -/
theorem ukRoundTrip (ukOff : ℤ → ℤ) (t : ℤ)
    (hmin : (60000 : ℤ) ∣ t) (hoffmin : (60000 : ℤ) ∣ ukOff t)
    (hstable : ukOff (t + ukOff t) = ukOff t) :
    convertUKInputToUTC ukOff (fun _ => 0) (convertUTCToUKInput ukOff t)
      = t := by
  unfold convertUKInputToUTC convertUTCToUKInput
  rw [minuteFloor_of_dvd _ (dvd_add hmin hoffmin)]
  simp only [sub_zero]
  rw [hstable]
  ring

/-- Witness for claim C5: with a UTC runtime, the BST instant
2025-07-01 12:00:00 UTC round-trips exactly through the Europe/London
wall-clock form. -/
theorem ukRoundTrip_witness :
    ((60000 : ℤ) ∣ 1751371200000)
    ∧ ((60000 : ℤ) ∣ ukOffset2025 1751371200000)
    ∧ ukOffset2025 (1751371200000 + ukOffset2025 1751371200000)
        = ukOffset2025 1751371200000
    ∧ convertUKInputToUTC ukOffset2025 (fun _ => 0)
        (convertUTCToUKInput ukOffset2025 1751371200000) = 1751371200000 := by
  have h1 : (60000 : ℤ) ∣ 1751371200000 := ⟨29189520, by norm_num⟩
  have h2 : (60000 : ℤ) ∣ ukOffset2025 1751371200000 := by
    rw [show ukOffset2025 1751371200000 = 3600000 from by
      unfold ukOffset2025; norm_num]
    exact ⟨60, by norm_num⟩
  have h3 : ukOffset2025 (1751371200000 + ukOffset2025 1751371200000)
      = ukOffset2025 1751371200000 := by
    unfold ukOffset2025
    norm_num
  exact ⟨h1, h2, h3, ukRoundTrip ukOffset2025 1751371200000 h1 h2 h3⟩

/-- Counterexample to claim C5: when the runtime itself is in
Europe/London (the deployment the admin note describes, with datetime
strings parsed as UK local time), the BST instant 2025-07-01 12:00:00 UTC
is not in any DST-transition ambiguity window (the offset is a constant
+1 h from it through its shifted wall clock), yet the round trip returns
the instant one hour earlier, not t. -/
theorem ukRoundTrip_counterexample :
    convertUKInputToUTC ukOffset2025 ukOffset2025
        (convertUTCToUKInput ukOffset2025 1751371200000)
      = 1751371200000 - 3600000
    ∧ ukOffset2025 1751371200000 = 3600000
    ∧ ukOffset2025 (1751371200000 + 3600000) = 3600000
    ∧ (1751371200000 - 3600000 : ℤ) ≠ 1751371200000 := by
  refine ⟨by decide, by decide, by decide, by decide⟩

/-- Claim C8: for every filtered job list the jobs CSV export consists of
the header row Job Name, Client, Location, Status, Quoted Cost, Created
Date followed by one row per filtered job whose fields appear in that
same column order (name, client, location, status, quoted cost,
formatted created date). -/
theorem exportJobs_rows (fmtDate : ℤ → String) (filters : JobFilters)
    (jobs : List Job) :
    (exportJobs fmtDate filters jobs).length
      = (getFilteredJobs filters jobs).length + 1
    ∧ (exportJobs fmtDate filters jobs).head? = some jobsCsvHeader
    ∧ ∀ i : ℕ, (exportJobs fmtDate filters jobs)[i + 1]?
        = ((getFilteredJobs filters jobs)[i]?).map (jobCsvRow fmtDate) := by
  refine ⟨?_, rfl, ?_⟩
  · simp [exportJobs, exportJobsRows]
  · intro i
    show (jobsCsvHeader :: (getFilteredJobs filters jobs).map
        (jobCsvRow fmtDate))[i + 1]? = _
    rw [List.getElem?_cons_succ, List.getElem?_map]

/-- Claim C9: the login roster contains exactly the workers that are not
archived and whose role is not admin, and it is sorted alphabetically by
name. -/
theorem availableWorkers_spec (ws : List Worker) :
    (∀ w, w ∈ availableWorkers ws
      ↔ w ∈ ws ∧ w.archived = false ∧ w.role ≠ "admin")
    ∧ (availableWorkers ws).Pairwise (fun a b => a.name ≤ b.name) := by
  constructor
  · intro w
    unfold availableWorkers
    rw [List.mem_mergeSort, List.mem_filter]
    simp [and_assoc]
  · have h := @List.sorted_mergeSort Worker
      (fun a b : Worker => decide (a.name ≤ b.name))
      (fun a b c hab hbc => by
        simp only [decide_eq_true_eq] at *
        exact le_trans hab hbc)
      (fun a b => by
        simp only [Bool.or_eq_true, decide_eq_true_eq]
        exact le_total a.name b.name)
      (ws.filter (fun w => !w.archived && w.role != "admin"))
    exact h.imp (fun hab => by simpa using hab)

/-- An entry with a set clock-out and a recorded duration of exactly zero
minutes, for the witness of claim C10. -/
def zeroDurEntry : TimeEntry :=
  { id := "e0", worker_id := "w1", job_id := "j1", clock_in := 0,
    clock_out := some 30000, duration_minutes := some 0, notes := "" }

/-- Claim C10: an entry whose clock-out is set but whose recorded duration
is exactly 0 minutes is treated as if still active: its duration cell
renders Active rather than a zero duration, and it is excluded from the
job totals, leaving hours, labor cost, materials cost and total cost
unchanged, because the code tests duration_minutes for truthiness. -/
theorem zeroDuration_treated_active (e : TimeEntry) (jobId : String)
    (es : List TimeEntry) (ms : List Material) (ws : List Worker)
    (_hco : e.clock_out ≠ none) (hd : e.duration_minutes = some 0) :
    durationCellText e.duration_minutes = "Active"
    ∧ getJobTotals jobId (e :: es) ms ws = getJobTotals jobId es ms ws := by
  constructor
  · rw [hd]
    rfl
  · have hc : (e.job_id == jobId && jsTruthy e.duration_minutes) = false := by
      rw [hd]
      simp [jsTruthy]
    unfold getJobTotals
    rw [List.filter_cons, if_neg (by rw [hc]; exact Bool.false_ne_true)]

/-- Witness for claim C10: the concrete zero-duration closed entry renders
Active and leaves the totals of job j1 unchanged. -/
theorem zeroDuration_treated_active_witness :
    durationCellText zeroDurEntry.duration_minutes = "Active"
    ∧ getJobTotals "j1" [zeroDurEntry] [] [] = getJobTotals "j1" [] [] [] :=
  zeroDuration_treated_active zeroDurEntry "j1" [] [] []
    (by simp [zeroDurEntry]) rfl
